import Mathlib

/-!
Verification of the billbuddy contact/group core (convex/contacts.js).

The file embeds the two Convex handlers `getAllContacts` and `createGroup`
as pure Lean functions over an explicit database state, mirroring the
JavaScript control flow:

Array.prototype.sort with a user comparator is modelled as a stable
insertion sort (`jsSort`); the ECMAScript spec requires a stable sort and
leaves inconsistent comparators implementation-defined, so any stable
deterministic model is admissible.  `String.prototype.localeCompare` with
no locale argument is modelled as a three-way code-unit lexicographic
comparison (`localeCompare`); the real function is host-locale dependent.
JavaScript `String.prototype.trim` is modelled by `jsTrim`, and `Set`
insertion-order semantics by `dedupFirst`.  `Date.now()` is modelled by an
explicit call-indexed clock passed to `createGroup`.
-/

/-! ## Generic list and string utilities mirroring JavaScript semantics -/

/-- Stable deduplication keeping the first occurrence, with an accumulator of
already-seen elements; models iteration order of a JavaScript `Set`. -/
def dedupFirstAux {α : Type} [DecidableEq α] (seen : List α) : List α → List α
  | [] => []
  | x :: xs => if x ∈ seen then dedupFirstAux seen xs else x :: dedupFirstAux (x :: seen) xs

/-- Deduplicate a list keeping first occurrences, in order: the element order of
`new Set(l)` in JavaScript. -/
def dedupFirst {α : Type} [DecidableEq α] (l : List α) : List α := dedupFirstAux [] l

/-- Three-way code-unit comparison of character lists: negative, zero or positive. -/
def cmpChars : List Char → List Char → Int
  | [], [] => 0
  | [], _ :: _ => -1
  | _ :: _, [] => 1
  | c :: cs, d :: ds => if c < d then -1 else if d < c then 1 else cmpChars cs ds

/-- Model of JavaScript `a.localeCompare(b)` used by the source to sort contact
names: a three-way comparison, modelled as code-unit lexicographic order (the
real comparison is host-locale dependent; it agrees with this model at least on
equal strings, which is all the tie-breaking arguments below rely on). -/
def localeCompare (s t : String) : Int := cmpChars s.data t.data

/-- Model of JavaScript `String.prototype.trim`: remove leading and trailing
whitespace characters. -/
def jsTrim (s : String) : String :=
  ⟨((s.data.dropWhile Char.isWhitespace).reverse.dropWhile Char.isWhitespace).reverse⟩

/-- Insert an element into a list before the first element it does not compare
strictly after; the building block of the stable-sort model. -/
def orderedInsertC {α : Type} (c : α → α → Int) (a : α) : List α → List α
  | [] => [a]
  | b :: l => if c a b ≤ 0 then a :: b :: l else b :: orderedInsertC c a l

/-- Stable insertion sort by a three-way comparator: the model of
JavaScript `Array.prototype.sort(comparator)`. -/
def jsSort {α : Type} (c : α → α → Int) : List α → List α
  | [] => []
  | a :: l => orderedInsertC c a (jsSort c l)

/-! ## Data model

Documents of the three Convex collections touched by convex/contacts.js.
Only the fields the two handlers read or write are modelled; purely
descriptive stored fields (expense description, category, date) never
influence these endpoints and are omitted. -/

/-- Database id of a user document. -/
abbrev UserId := String

/-- Database id of a group document. -/
abbrev GroupId := String

/-- A user document, with the fields getAllContacts projects. -/
structure User where
  _id : UserId
  name : String
  email : String
  imageUrl : String
deriving DecidableEq, Repr

/-- One split entry of an expense: a participant and the share they owe. -/
structure Split where
  userId : UserId
  owedShare : Int
deriving DecidableEq, Repr

/-- An expense document; groupId none models the absent/undefined field of a
personal (1-to-1) expense. -/
structure Expense where
  amount : Int
  paidByUserId : UserId
  groupId : Option GroupId
  splits : List Split
deriving DecidableEq, Repr

/-- A group membership entry; role is the literal string written by the code,
admin or member. -/
structure Member where
  userId : UserId
  role : String
  joinedAt : Nat
deriving DecidableEq, Repr

/-- A group document as written by createGroup. -/
structure GroupDoc where
  _id : GroupId
  name : String
  description : String
  createdBy : UserId
  members : List Member
deriving DecidableEq, Repr

/-- The database state the handlers run against: the three collections. -/
structure Ledger where
  users : List User
  expenses : List Expense
  groups : List GroupDoc
deriving DecidableEq, Repr

/-- A user entry of the getAllContacts result (the constant tag field
type equal to the string user is omitted). -/
structure ContactUser where
  id : UserId
  name : String
  email : String
  imageUrl : String
deriving DecidableEq, Repr

/-- A group summary entry of the getAllContacts result (the constant tag field
type equal to the string group is omitted). -/
structure ContactGroup where
  id : GroupId
  name : String
  description : String
  memberCount : Nat
deriving DecidableEq, Repr

/-- The value returned by getAllContacts. -/
structure ContactsResult where
  users : List ContactUser
  groups : List ContactGroup
deriving DecidableEq, Repr

/-! ## getAllContacts (convex/contacts.js, query handler) -/

/-- Lookup of ctx.db.get on the users collection: the document whose _id
matches, none when the id does not resolve. -/
def lookupUser (st : Ledger) (uid : UserId) : Option User :=
  st.users.find? (fun u => u._id == uid)

/-- The indexed query for personal expenses paid by the viewer:
paidByUserId equals the viewer and groupId is undefined. -/
def expensesYouPaid (viewer : UserId) (st : Ledger) : List Expense :=
  st.expenses.filter (fun e => e.paidByUserId == viewer && e.groupId.isNone)

/-- The second query: personal expenses (groupId undefined) filtered to those
someone else paid in which the viewer appears in some split. -/
def expensesNotPaidByYou (viewer : UserId) (st : Ledger) : List Expense :=
  (st.expenses.filter (fun e => e.groupId.isNone)).filter
    (fun e => e.paidByUserId != viewer && e.splits.any (fun s => s.userId == viewer))

/-- Concatenation of the two query results: all personal expenses involving
the viewer. -/
def personalExpensesOf (viewer : UserId) (st : Ledger) : List Expense :=
  expensesYouPaid viewer st ++ expensesNotPaidByYou viewer st

/-- Contact ids contributed by one expense, in the order the code adds them to
the set: the payer when it is not the viewer, then every split participant
other than the viewer. -/
def expenseContactIds (viewer : UserId) (e : Expense) : List UserId :=
  (if e.paidByUserId == viewer then [] else [e.paidByUserId]) ++
    (e.splits.map Split.userId).filter (fun u => u != viewer)

/-- The stream of contact-id insertions performed by the forEach loops. -/
def contactIdStream (viewer : UserId) : List Expense → List UserId
  | [] => []
  | e :: rest => expenseContactIds viewer e ++ contactIdStream viewer rest

/-- The contactIds set of the source in iteration order: first occurrences of
the insertion stream over all personal expenses. -/
def contactIdsOf (viewer : UserId) (st : Ledger) : List UserId :=
  dedupFirst (contactIdStream viewer (personalExpensesOf viewer st))

/-- Resolution of one collected contact id to a projected user record; none
models the null produced for a soft-deleted user. -/
def lookupContact (st : Ledger) (uid : UserId) : Option ContactUser :=
  (lookupUser st uid).map (fun u => ⟨u._id, u.name, u.email, u.imageUrl⟩)

/-- The contactUsers array before sorting and null-filtering: one entry per
collected id, null (none) when the id does not resolve. -/
def contactUsersRaw (viewer : UserId) (st : Ledger) : List (Option ContactUser) :=
  (contactIdsOf viewer st).map (lookupContact st)

/-- Projection of a group document to the summary returned to the frontend. -/
def groupSummary (g : GroupDoc) : ContactGroup :=
  ⟨g._id, g.name, g.description, g.members.length⟩

/-- The userGroups array: all groups whose member roster contains the viewer,
projected to summaries, in collection order. -/
def userGroupsOf (viewer : UserId) (st : Ledger) : List ContactGroup :=
  (st.groups.filter (fun g => g.members.any (fun m => m.userId == viewer))).map groupSummary

/-- JavaScript coercion applied by the comparator when its second argument is
null: the undefined value stringifies to the literal string undefined. -/
def jsNameOf : Option ContactUser → String
  | none => "undefined"
  | some u => u.name

/-- The users comparator of the source: on a null first argument the optional
chain yields undefined, which sorts as comparator result zero; otherwise the
name is locale-compared against the possibly-coerced second name. -/
def cmpContactUser (a b : Option ContactUser) : Int :=
  match a with
  | none => 0
  | some u => localeCompare u.name (jsNameOf b)

/-- The groups comparator of the source: locale comparison of names. -/
def cmpContactGroup (a b : ContactGroup) : Int :=
  localeCompare a.name b.name

/-- The getAllContacts handler: collect personal-expense contacts, resolve
them, collect the viewer's groups, sort both arrays, and drop unresolved
(null) users after the sort, exactly as the source does. -/
def getAllContacts (viewer : UserId) (st : Ledger) : ContactsResult :=
  { users := (jsSort cmpContactUser (contactUsersRaw viewer st)).filterMap (fun x => x)
    groups := jsSort cmpContactGroup (userGroupsOf viewer st) }

/-! ## createGroup (convex/contacts.js, mutation handler) -/

/-- Domain errors of createGroup, named as in the specification taxonomy; the
source throws Error with a message at exactly these two sites. -/
inductive GroupMutationError where
  | invalidGroupName : GroupMutationError
  | unknownUser (uid : UserId) : GroupMutationError
deriving DecidableEq, Repr

/-- Arguments of the createGroup mutation; description is optional. -/
structure CreateGroupArgs where
  name : String
  description : Option String
  members : List UserId
deriving DecidableEq, Repr

/-- The uniqueMembers set of the source in iteration order: the requested
member ids deduplicated, with the caller appended when not already present. -/
def uniqueMembersOf (caller : UserId) (members : List UserId) : List UserId :=
  let deduped := dedupFirst members
  if caller ∈ deduped then deduped else deduped ++ [caller]

/-- The validation loop of createGroup: the first id in iteration order whose
user document does not exist, if any. -/
def firstMissingMember (st : Ledger) : List UserId → Option UserId
  | [] => none
  | uid :: rest =>
    if (lookupUser st uid).isNone then some uid else firstMissingMember st rest

/-- The member-array construction of the insert: the i-th entry records the
value of the i-th Date.now() call as joinedAt, the admin role exactly for the
caller and the member role otherwise. -/
def buildMembers (caller : UserId) (clock : Nat → Nat) : Nat → List UserId → List Member
  | _, [] => []
  | i, uid :: rest =>
    { userId := uid
      role := if uid = caller then "admin" else "member"
      joinedAt := clock i } :: buildMembers caller clock (i + 1) rest

/-- The createGroup handler as a state transformer: clock models the successive
Date.now() calls (call index to timestamp) and newId the document id the
insert allocates.  The returned state is the original one on every error
path and has the single new group appended on success. -/
def createGroup (caller : UserId) (args : CreateGroupArgs) (clock : Nat → Nat)
    (newId : GroupId) (st : Ledger) : Except GroupMutationError GroupId × Ledger :=
  if jsTrim args.name = "" then (Except.error GroupMutationError.invalidGroupName, st)
  else
    match firstMissingMember st (uniqueMembersOf caller args.members) with
    | some uid => (Except.error (GroupMutationError.unknownUser uid), st)
    | none =>
      let g : GroupDoc :=
        { _id := newId
          name := jsTrim args.name
          description := (args.description.map jsTrim).getD ""
          createdBy := caller
          members := buildMembers caller clock 0 (uniqueMembersOf caller args.members) }
      (Except.ok newId, { st with groups := st.groups ++ [g] })

/-! ## Claim-side definition for the sortedness claim

Written from the words of the specification, not from the source, for the
refinement comparison of claim C3. -/

/-- The ordering the specification asserts for the users list: ascending by
name under case-sensitive lexicographic ordering, ties broken by id. -/
def nameIdSortedClaim (l : List ContactUser) : Prop :=
  l.Pairwise (fun a b =>
    localeCompare a.name b.name < 0 ∨ (a.name = b.name ∧ localeCompare a.id b.id ≤ 0))

instance : DecidablePred nameIdSortedClaim := by
  unfold nameIdSortedClaim
  infer_instance

/-! ## Concrete fixtures used by witnesses and counterexamples -/

/-- A viewer user record shared by the fixture states below. -/
def userV : User := ⟨"v", "Vik", "v@x.com", "img-v"⟩

/-- Fixture for claim C2: the viewer paid a personal expense whose second
split participant has no user document. -/
def stC2 : Ledger :=
  { users := [userV]
    expenses := [⟨100, "v", none, [⟨"v", 40⟩, ⟨"ghost", 60⟩]⟩]
    groups := [] }

/-- Fixture for the C3 counterexample: two distinct contacts share the name
Sam and are collected with the larger id first. -/
def stC3 : Ledger :=
  { users := [⟨"u1", "Sam", "s1@x.com", "img-1"⟩, ⟨"u2", "Sam", "s2@x.com", "img-2"⟩, userV]
    expenses := [⟨100, "v", none, [⟨"u2", 60⟩, ⟨"u1", 40⟩]⟩]
    groups := [] }

/-- Fixture for the C3 witness: every collected contact id resolves and there
is one group containing the viewer. -/
def stC3w : Ledger :=
  { users := [⟨"a1", "Ann", "a@x.com", "img-a"⟩, ⟨"b1", "Bob", "b@x.com", "img-b"⟩, userV]
    expenses := [⟨100, "v", none, [⟨"b1", 50⟩, ⟨"a1", 50⟩]⟩]
    groups := [⟨"g1", "Trip", "", "v", [⟨"v", "admin", 0⟩, ⟨"a1", "member", 0⟩]⟩] }

/-- Fixture for the C4 witness: one contact and two groups with distinct ids
containing the viewer. -/
def stC4 : Ledger :=
  { users := [⟨"a1", "Ann", "a@x.com", "img-a"⟩, userV]
    expenses := [⟨30, "a1", none, [⟨"v", 30⟩]⟩]
    groups := [⟨"g1", "Trip", "", "v", [⟨"v", "admin", 0⟩]⟩,
               ⟨"g2", "Rent", "", "v", [⟨"v", "admin", 0⟩]⟩] }

/-- Fixture for claim C5: only the viewer exists, so any other member id is
missing. -/
def stC5 : Ledger :=
  { users := [userV], expenses := [], groups := [] }

/-- Fixture for the createGroup success claims C6, C9 and C10: the caller and
one other user exist. -/
def stC6 : Ledger :=
  { users := [userV, ⟨"b1", "Bob", "b@x.com", "img-b"⟩], expenses := [], groups := [] }

/-! ## Lemmas about the utilities -/

theorem mem_dedupFirstAux {α : Type} [DecidableEq α] (x : α) (seen l : List α) :
    x ∈ dedupFirstAux seen l ↔ x ∈ l ∧ x ∉ seen := by
  induction l generalizing seen with
  | nil => simp [dedupFirstAux]
  | cons a as ih =>
    simp only [dedupFirstAux, List.mem_cons]
    by_cases ha : a ∈ seen
    · rw [if_pos ha, ih]
      constructor
      · rintro ⟨h, hn⟩
        exact ⟨Or.inr h, hn⟩
      · rintro ⟨h | h, hn⟩
        · subst h
          exact absurd ha hn
        · exact ⟨h, hn⟩
    · rw [if_neg ha]
      simp only [List.mem_cons, ih, List.mem_cons, not_or]
      constructor
      · rintro (rfl | ⟨h, hn1, hn2⟩)
        · exact ⟨Or.inl rfl, ha⟩
        · exact ⟨Or.inr h, hn2⟩
      · rintro ⟨h | h, hn⟩
        · exact Or.inl h
        · by_cases hxa : x = a
          · exact Or.inl hxa
          · exact Or.inr ⟨h, hxa, hn⟩

theorem mem_dedupFirst {α : Type} [DecidableEq α] (x : α) (l : List α) :
    x ∈ dedupFirst l ↔ x ∈ l := by
  simp [dedupFirst, mem_dedupFirstAux]

theorem nodup_dedupFirstAux {α : Type} [DecidableEq α] (seen l : List α) :
    (dedupFirstAux seen l).Nodup := by
  induction l generalizing seen with
  | nil => simp [dedupFirstAux]
  | cons a as ih =>
    simp only [dedupFirstAux]
    by_cases ha : a ∈ seen
    · rw [if_pos ha]
      exact ih seen
    · rw [if_neg ha]
      refine List.nodup_cons.mpr ⟨?_, ih (a :: seen)⟩
      intro hmem
      rw [mem_dedupFirstAux] at hmem
      simp at hmem

theorem nodup_dedupFirst {α : Type} [DecidableEq α] (l : List α) :
    (dedupFirst l).Nodup :=
  nodup_dedupFirstAux [] l

theorem cmpChars_swap (a b : List Char) : cmpChars b a = - cmpChars a b := by
  induction a generalizing b with
  | nil => cases b <;> simp [cmpChars]
  | cons c cs ih =>
    cases b with
    | nil => simp [cmpChars]
    | cons d ds =>
      simp only [cmpChars]
      rcases lt_trichotomy c d with h | h | h
      · simp [h, not_lt_of_gt h]
      · simp [h, lt_irrefl, ih]
      · simp [h, not_lt_of_gt h]

theorem cmpChars_le_total (a b : List Char) : cmpChars a b ≤ 0 ∨ cmpChars b a ≤ 0 := by
  by_cases h : cmpChars a b ≤ 0
  · exact Or.inl h
  · refine Or.inr ?_
    rw [cmpChars_swap]
    omega

theorem cmpChars_le_trans {a b c : List Char} (h1 : cmpChars a b ≤ 0) (h2 : cmpChars b c ≤ 0) :
    cmpChars a c ≤ 0 := by
  induction a generalizing b c with
  | nil => cases c <;> simp [cmpChars]
  | cons x xs ih =>
    cases b with
    | nil => simp [cmpChars] at h1
    | cons y ys =>
      cases c with
      | nil => simp [cmpChars] at h2
      | cons z zs =>
        simp only [cmpChars] at h1 h2 ⊢
        rcases lt_trichotomy x y with hxy | hxy | hxy
        · rcases lt_trichotomy y z with hyz | hyz | hyz
          · have : x < z := lt_trans hxy hyz
            simp [this]
          · subst hyz
            simp [hxy]
          · simp [hyz, not_lt_of_gt hyz] at h2
        · subst hxy
          rcases lt_trichotomy x z with hyz | hyz | hyz
          · simp [hyz]
          · subst hyz
            simp only [lt_irrefl, if_neg (lt_irrefl x)] at h1 h2 ⊢
            exact ih h1 h2
          · simp [hyz, not_lt_of_gt hyz] at h2
        · simp [hxy, not_lt_of_gt hxy] at h1

theorem localeCompare_le_total (s t : String) :
    localeCompare s t ≤ 0 ∨ localeCompare t s ≤ 0 :=
  cmpChars_le_total s.data t.data

theorem localeCompare_le_trans {s t u : String} (h1 : localeCompare s t ≤ 0)
    (h2 : localeCompare t u ≤ 0) : localeCompare s u ≤ 0 :=
  cmpChars_le_trans h1 h2

theorem mem_orderedInsertC {α : Type} (c : α → α → Int) (a x : α) (l : List α) :
    x ∈ orderedInsertC c a l ↔ x = a ∨ x ∈ l := by
  induction l with
  | nil => simp [orderedInsertC]
  | cons b bs ih =>
    simp only [orderedInsertC]
    by_cases h : c a b ≤ 0
    · rw [if_pos h]
      simp [List.mem_cons]
    · rw [if_neg h]
      simp only [List.mem_cons, ih]
      tauto

theorem orderedInsertC_perm {α : Type} (c : α → α → Int) (a : α) (l : List α) :
    List.Perm (orderedInsertC c a l) (a :: l) := by
  induction l with
  | nil => exact List.Perm.refl _
  | cons b bs ih =>
    simp only [orderedInsertC]
    by_cases h : c a b ≤ 0
    · rw [if_pos h]
    · rw [if_neg h]
      exact (ih.cons b).trans (List.Perm.swap a b bs)

theorem jsSort_perm {α : Type} (c : α → α → Int) (l : List α) :
    List.Perm (jsSort c l) l := by
  induction l with
  | nil => exact List.Perm.refl _
  | cons a as ih =>
    simp only [jsSort]
    exact (orderedInsertC_perm c a (jsSort c as)).trans (ih.cons a)

theorem mem_jsSort {α : Type} (c : α → α → Int) (x : α) (l : List α) :
    x ∈ jsSort c l ↔ x ∈ l :=
  (jsSort_perm c l).mem_iff

theorem pairwise_orderedInsertC {α : Type} (c : α → α → Int) (a : α) (l : List α)
    (hl : l.Pairwise (fun x y => c x y ≤ 0))
    (htot : ∀ x ∈ l, c a x ≤ 0 ∨ c x a ≤ 0)
    (htr : ∀ x ∈ l, ∀ y ∈ l, c a x ≤ 0 → c x y ≤ 0 → c a y ≤ 0) :
    (orderedInsertC c a l).Pairwise (fun x y => c x y ≤ 0) := by
  induction l with
  | nil => simp [orderedInsertC]
  | cons b bs ih =>
    simp only [orderedInsertC]
    have hhead := (List.pairwise_cons.mp hl).1
    have htail := (List.pairwise_cons.mp hl).2
    by_cases hab : c a b ≤ 0
    · rw [if_pos hab]
      refine List.pairwise_cons.mpr ⟨?_, hl⟩
      intro x hx
      rcases List.mem_cons.mp hx with rfl | hx'
      · exact hab
      · exact htr b (by simp) x (by simp [hx']) hab (hhead x hx')
    · rw [if_neg hab]
      have hba : c b a ≤ 0 := (htot b (by simp)).resolve_left hab
      refine List.pairwise_cons.mpr ⟨?_, ?_⟩
      · intro x hx
        rcases (mem_orderedInsertC c a x bs).mp hx with rfl | hx'
        · exact hba
        · exact hhead x hx'
      · refine ih htail ?_ ?_
        · intro x hx
          exact htot x (by simp [hx])
        · intro x hx y hy hax hxy
          exact htr x (by simp [hx]) y (by simp [hy]) hax hxy

theorem pairwise_jsSort {α : Type} (c : α → α → Int) (l : List α)
    (htot : ∀ x ∈ l, ∀ y ∈ l, c x y ≤ 0 ∨ c y x ≤ 0)
    (htr : ∀ x ∈ l, ∀ y ∈ l, ∀ z ∈ l, c x y ≤ 0 → c y z ≤ 0 → c x z ≤ 0) :
    (jsSort c l).Pairwise (fun x y => c x y ≤ 0) := by
  induction l with
  | nil => simp [jsSort]
  | cons a as ih =>
    simp only [jsSort]
    refine pairwise_orderedInsertC c a (jsSort c as) ?_ ?_ ?_
    · refine ih ?_ ?_
      · intro x hx y hy
        exact htot x (by simp [hx]) y (by simp [hy])
      · intro x hx y hy z hz
        exact htr x (by simp [hx]) y (by simp [hy]) z (by simp [hz])
    · intro x hx
      rw [mem_jsSort] at hx
      exact htot a (by simp) x (by simp [hx])
    · intro x hx y hy
      rw [mem_jsSort] at hx hy
      exact htr a (by simp) x (by simp [hx]) y (by simp [hy])

/-! ## Characterization lemmas for getAllContacts -/

theorem mem_expenseContactIds (viewer uid : UserId) (e : Expense) :
    uid ∈ expenseContactIds viewer e ↔
      uid ≠ viewer ∧ (e.paidByUserId = uid ∨ uid ∈ e.splits.map Split.userId) := by
  simp only [expenseContactIds, List.mem_append, List.mem_filter, bne_iff_ne, ne_eq]
  by_cases hp : e.paidByUserId = viewer
  · rw [if_pos (by simp [hp])]
    constructor
    · rintro (h | ⟨h1, h2⟩)
      · simp at h
      · exact ⟨h2, Or.inr h1⟩
    · rintro ⟨h1, h2 | h2⟩
      · exact absurd (hp ▸ h2.symm) h1
      · exact Or.inr ⟨h2, h1⟩
  · rw [if_neg (by simp [hp])]
    simp only [List.mem_singleton]
    constructor
    · rintro (rfl | ⟨h1, h2⟩)
      · exact ⟨hp, Or.inl rfl⟩
      · exact ⟨h2, Or.inr h1⟩
    · rintro ⟨h1, h2 | h2⟩
      · exact Or.inl h2.symm
      · exact Or.inr ⟨h2, h1⟩

theorem mem_contactIdStream (viewer uid : UserId) (exps : List Expense) :
    uid ∈ contactIdStream viewer exps ↔ ∃ e ∈ exps, uid ∈ expenseContactIds viewer e := by
  induction exps with
  | nil => simp [contactIdStream]
  | cons e rest ih =>
    simp only [contactIdStream, List.mem_append, ih, List.mem_cons]
    constructor
    · rintro (h | ⟨f, hf, hm⟩)
      · exact ⟨e, Or.inl rfl, h⟩
      · exact ⟨f, Or.inr hf, hm⟩
    · rintro ⟨f, rfl | hf, hm⟩
      · exact Or.inl hm
      · exact Or.inr ⟨f, hf, hm⟩

theorem mem_personalExpensesOf (viewer : UserId) (st : Ledger) (e : Expense) :
    e ∈ personalExpensesOf viewer st ↔
      e ∈ st.expenses ∧ e.groupId = none ∧
        (e.paidByUserId = viewer ∨ viewer ∈ e.splits.map Split.userId) := by
  simp only [personalExpensesOf, expensesYouPaid, expensesNotPaidByYou, List.mem_append,
    List.mem_filter, Bool.and_eq_true, beq_iff_eq, bne_iff_ne, ne_eq,
    Option.isNone_iff_eq_none, List.any_eq_true, List.mem_map]
  constructor
  · rintro (⟨he, hp, hg⟩ | ⟨⟨he, hg⟩, hp, s, hs, hsu⟩)
    · exact ⟨he, hg, Or.inl hp⟩
    · exact ⟨he, hg, Or.inr ⟨s, hs, hsu⟩⟩
  · rintro ⟨he, hg, hp | ⟨s, hs, hsu⟩⟩
    · exact Or.inl ⟨he, hp, hg⟩
    · by_cases hpv : e.paidByUserId = viewer
      · exact Or.inl ⟨he, hpv, hg⟩
      · exact Or.inr ⟨⟨he, hg⟩, hpv, s, hs, hsu⟩

theorem mem_contactIdsOf (viewer uid : UserId) (st : Ledger) :
    uid ∈ contactIdsOf viewer st ↔
      uid ≠ viewer ∧
        ∃ e ∈ st.expenses, e.groupId = none ∧
          (e.paidByUserId = viewer ∨ viewer ∈ e.splits.map Split.userId) ∧
          (e.paidByUserId = uid ∨ uid ∈ e.splits.map Split.userId) := by
  rw [contactIdsOf, mem_dedupFirst, mem_contactIdStream]
  constructor
  · rintro ⟨e, he, hm⟩
    rw [mem_personalExpensesOf] at he
    rw [mem_expenseContactIds] at hm
    exact ⟨hm.1, e, he.1, he.2.1, he.2.2, hm.2⟩
  · rintro ⟨hne, e, he, hg, hv, hu⟩
    refine ⟨e, ?_, ?_⟩
    · rw [mem_personalExpensesOf]
      exact ⟨he, hg, hv⟩
    · rw [mem_expenseContactIds]
      exact ⟨hne, hu⟩

theorem lookupUser_id_of_some {st : Ledger} {uid : UserId} {u : User}
    (h : lookupUser st uid = some u) : u._id = uid := by
  have := List.find?_some h
  simpa using this

theorem mem_users_ids (viewer : UserId) (st : Ledger) (uid : UserId) :
    uid ∈ (getAllContacts viewer st).users.map ContactUser.id ↔
      uid ∈ contactIdsOf viewer st ∧ (lookupUser st uid).isSome := by
  simp only [getAllContacts, List.mem_map, List.mem_filterMap]
  constructor
  · rintro ⟨cu, ⟨o, ho, hoe⟩, rfl⟩
    rw [mem_jsSort] at ho
    obtain ⟨cid, hcid, hlk⟩ := List.mem_map.mp ho
    rw [hlk.symm] at hoe
    obtain ⟨u, hu, hproj⟩ := Option.map_eq_some'.mp hoe
    have hid : u._id = cid := lookupUser_id_of_some hu
    have hcuid : cu.id = cid := by rw [← hproj]; exact hid
    rw [hcuid]
    exact ⟨hcid, by rw [hu]; rfl⟩
  · rintro ⟨hmem, hsome⟩
    obtain ⟨u, hu⟩ := Option.isSome_iff_exists.mp hsome
    have hid : u._id = uid := lookupUser_id_of_some hu
    refine ⟨⟨u._id, u.name, u.email, u.imageUrl⟩, ⟨some ⟨u._id, u.name, u.email, u.imageUrl⟩, ?_, rfl⟩, hid⟩
    rw [mem_jsSort]
    refine List.mem_map.mpr ⟨uid, hmem, ?_⟩
    rw [lookupContact, hu, Option.map_some']

theorem mem_userGroupsOf (viewer : UserId) (st : Ledger) (s : ContactGroup) :
    s ∈ userGroupsOf viewer st ↔
      ∃ g ∈ st.groups, (∃ m ∈ g.members, m.userId = viewer) ∧ s = groupSummary g := by
  simp only [userGroupsOf, List.mem_map, List.mem_filter, List.any_eq_true, beq_iff_eq]
  constructor
  · rintro ⟨g, ⟨hg, m, hm, hmv⟩, rfl⟩
    exact ⟨g, hg, ⟨m, hm, hmv⟩, rfl⟩
  · rintro ⟨g, hg, ⟨m, hm, hmv⟩, rfl⟩
    exact ⟨g, ⟨hg, m, hm, hmv⟩, rfl⟩

/-! ## Lemmas for createGroup -/

theorem mem_uniqueMembersOf (caller uid : UserId) (members : List UserId) :
    uid ∈ uniqueMembersOf caller members ↔ uid ∈ members ∨ uid = caller := by
  unfold uniqueMembersOf
  by_cases hc : caller ∈ dedupFirst members
  · rw [if_pos hc, mem_dedupFirst]
    constructor
    · exact Or.inl
    · rintro (h | rfl)
      · exact h
      · rw [← mem_dedupFirst]
        exact hc
  · rw [if_neg hc]
    simp only [List.mem_append, mem_dedupFirst, List.mem_singleton]

theorem nodup_uniqueMembersOf (caller : UserId) (members : List UserId) :
    (uniqueMembersOf caller members).Nodup := by
  unfold uniqueMembersOf
  by_cases hc : caller ∈ dedupFirst members
  · rw [if_pos hc]
    exact nodup_dedupFirst members
  · rw [if_neg hc]
    rw [List.nodup_append]
    exact ⟨nodup_dedupFirst members, List.nodup_singleton caller,
      fun a ha hb => hc ((List.mem_singleton.mp hb) ▸ ha)⟩

theorem buildMembers_map_userId (caller : UserId) (clock : Nat → Nat) (i : Nat)
    (l : List UserId) : (buildMembers caller clock i l).map Member.userId = l := by
  induction l generalizing i with
  | nil => rfl
  | cons uid rest ih => simp [buildMembers, ih]

theorem buildMembers_role (caller : UserId) (clock : Nat → Nat) (i : Nat)
    (l : List UserId) :
    ∀ m ∈ buildMembers caller clock i l,
      m.role = if m.userId = caller then "admin" else "member" := by
  induction l generalizing i with
  | nil => intro m hm; simp [buildMembers] at hm
  | cons uid rest ih =>
    intro m hm
    rcases List.mem_cons.mp hm with rfl | hm'
    · rfl
    · exact ih (i + 1) m hm'

theorem buildMembers_joinedAt (caller : UserId) (clock : Nat → Nat) (i : Nat)
    (l : List UserId) (t : Nat) (hc : ∀ j, clock j = t) :
    ∀ m ∈ buildMembers caller clock i l, m.joinedAt = t := by
  induction l generalizing i with
  | nil => intro m hm; simp [buildMembers] at hm
  | cons uid rest ih =>
    intro m hm
    rcases List.mem_cons.mp hm with rfl | hm'
    · exact hc i
    · exact ih (i + 1) m hm'

theorem createGroup_ok_groups (caller : UserId) (args : CreateGroupArgs)
    (clock : Nat → Nat) (newId : GroupId) (st : Ledger)
    (hok : (createGroup caller args clock newId st).1 = Except.ok newId) :
    (createGroup caller args clock newId st).2.groups =
      st.groups ++
        [{ _id := newId
           name := jsTrim args.name
           description := (args.description.map jsTrim).getD ""
           createdBy := caller
           members := buildMembers caller clock 0 (uniqueMembersOf caller args.members) }] := by
  unfold createGroup at hok ⊢
  by_cases hn : jsTrim args.name = ""
  · rw [if_pos hn] at hok
    exact absurd hok (by simp)
  · rw [if_neg hn] at hok ⊢
    cases hfm : firstMissingMember st (uniqueMembersOf caller args.members) with
    | some uid =>
      rw [hfm] at hok
      exact absurd hok (by simp)
    | none =>
      rfl

/-! ## Claim theorems -/

/-- Claim C1: for every viewer and ledger state, an id is in the users list
returned by getAllContacts exactly when it is the id of an existing user other
than the viewer that appears, as payer or as a split participant, in some
personal expense (groupId absent) in which the viewer is the payer or appears
in a split; expenses carrying a groupId contribute no entries. -/
theorem c1_users_exactly_personal_counterparts (viewer : UserId) (st : Ledger)
    (uid : UserId) :
    uid ∈ (getAllContacts viewer st).users.map ContactUser.id ↔
      uid ≠ viewer ∧ (lookupUser st uid).isSome ∧
        ∃ e ∈ st.expenses, e.groupId = none ∧
          (e.paidByUserId = viewer ∨ viewer ∈ e.splits.map Split.userId) ∧
          (e.paidByUserId = uid ∨ uid ∈ e.splits.map Split.userId) := by
  rw [mem_users_ids, mem_contactIdsOf]
  constructor
  · rintro ⟨⟨hne, e, he, hg, hv, hu⟩, hsome⟩
    exact ⟨hne, hsome, e, he, hg, hv, hu⟩
  · rintro ⟨hne, hsome, e, he, hg, hv, hu⟩
    exact ⟨⟨hne, e, he, hg, hv, hu⟩, hsome⟩

/-- Claim C2: a collected contact id that resolves to no user document is
dropped from the users list; getAllContacts is a total function of the state,
so unresolvable (soft-deleted) ids never make the call fail. -/
theorem c2_missing_user_dropped (viewer : UserId) (st : Ledger) (uid : UserId)
    (hmiss : lookupUser st uid = none) :
    uid ∉ (getAllContacts viewer st).users.map ContactUser.id := by
  rw [mem_users_ids]
  simp [hmiss]

/-- Witness for claim C2: in the concrete state stC2 the ghost split
participant has no user document and is absent from the users list. -/
theorem c2_missing_user_dropped_witness :
    "ghost" ∉ (getAllContacts "v" stC2).users.map ContactUser.id :=
  c2_missing_user_dropped "v" stC2 "ghost" (by rfl)

/-- Counterexample to claim C3 as stated: in stC3 two contacts named Sam are
returned in collection order u2 before u1, so the users list is not ordered
with ties broken ascending by id. -/
theorem c3_counterexample : ¬ nameIdSortedClaim (getAllContacts "v" stC3).users := by
  decide

/-- Claim C3 (amended): provided every collected contact id resolves to a user
document, the users list is pairwise ascending by name under the modelled
locale comparison, and the groups list is pairwise ascending by name as well;
equal-name users keep collection order rather than being reordered by id. -/
theorem c3_amended_sorted_by_name (viewer : UserId) (st : Ledger)
    (hres : ∀ uid ∈ contactIdsOf viewer st, (lookupUser st uid).isSome) :
    (getAllContacts viewer st).users.Pairwise
        (fun a b => localeCompare a.name b.name ≤ 0) ∧
      (getAllContacts viewer st).groups.Pairwise
        (fun a b => localeCompare a.name b.name ≤ 0) := by
  constructor
  · have hsome : ∀ o ∈ contactUsersRaw viewer st, ∃ cu, o = some cu := by
      intro o ho
      obtain ⟨cid, hcid, hlk⟩ := List.mem_map.mp ho
      obtain ⟨u, hu⟩ := Option.isSome_iff_exists.mp (hres cid hcid)
      exact ⟨⟨u._id, u.name, u.email, u.imageUrl⟩, by rw [← hlk, lookupContact, hu]; rfl⟩
    have hpw : (jsSort cmpContactUser (contactUsersRaw viewer st)).Pairwise
        (fun a b => cmpContactUser a b ≤ 0) := by
      refine pairwise_jsSort _ _ ?_ ?_
      · intro x hx y hy
        obtain ⟨cx, rfl⟩ := hsome x hx
        obtain ⟨cy, rfl⟩ := hsome y hy
        exact localeCompare_le_total cx.name cy.name
      · intro x hx y hy z hz h1 h2
        obtain ⟨cx, rfl⟩ := hsome x hx
        obtain ⟨cy, rfl⟩ := hsome y hy
        obtain ⟨cz, rfl⟩ := hsome z hz
        exact localeCompare_le_trans h1 h2
    simp only [getAllContacts]
    rw [List.pairwise_filterMap]
    refine hpw.imp ?_
    intro a a' hab b hb b' hb'
    rw [Option.mem_def] at hb hb'
    subst hb
    subst hb'
    exact hab
  · have hpw : (jsSort cmpContactGroup (userGroupsOf viewer st)).Pairwise
        (fun a b => cmpContactGroup a b ≤ 0) := by
      refine pairwise_jsSort _ _ ?_ ?_
      · intro x _ y _
        exact localeCompare_le_total x.name y.name
      · intro x _ y _ z _ h1 h2
        exact localeCompare_le_trans h1 h2
    exact hpw

/-- Witness for the amended claim C3: in stC3w every collected id resolves and
both returned lists are pairwise ascending by name. -/
theorem c3_amended_sorted_by_name_witness :
    (getAllContacts "v" stC3w).users.Pairwise
        (fun a b => localeCompare a.name b.name ≤ 0) ∧
      (getAllContacts "v" stC3w).groups.Pairwise
        (fun a b => localeCompare a.name b.name ≤ 0) :=
  c3_amended_sorted_by_name "v" stC3w (by decide)

/-- Claim C4: the users list never contains the viewer's own id, and, given the
database invariant that stored group ids are distinct, no group id appears more
than once in the groups list. -/
theorem c4_no_self_and_nodup_groups (viewer : UserId) (st : Ledger)
    (hg : (st.groups.map GroupDoc._id).Nodup) :
    viewer ∉ (getAllContacts viewer st).users.map ContactUser.id ∧
      ((getAllContacts viewer st).groups.map ContactGroup.id).Nodup := by
  constructor
  · intro hmem
    rw [mem_users_ids, mem_contactIdsOf] at hmem
    exact hmem.1.1 rfl
  · have hperm : List.Perm
        ((getAllContacts viewer st).groups.map ContactGroup.id)
        ((userGroupsOf viewer st).map ContactGroup.id) := by
      simp only [getAllContacts]
      exact (jsSort_perm cmpContactGroup (userGroupsOf viewer st)).map ContactGroup.id
    have hfun : (ContactGroup.id ∘ groupSummary) = GroupDoc._id := rfl
    have hraw : ((userGroupsOf viewer st).map ContactGroup.id).Nodup := by
      rw [userGroupsOf, List.map_map, hfun]
      exact ((List.filter_sublist st.groups).map GroupDoc._id).nodup hg
    exact hperm.symm.nodup hraw

/-- Witness for claim C4 at the concrete state stC4: the viewer is absent from
the users list and the two group ids are distinct. -/
theorem c4_no_self_and_nodup_groups_witness :
    "v" ∉ (getAllContacts "v" stC4).users.map ContactUser.id ∧
      ((getAllContacts "v" stC4).groups.map ContactGroup.id).Nodup :=
  c4_no_self_and_nodup_groups "v" stC4 (by decide)

/-- Counterexample to claim C5 as stated: with an empty name and a missing
member id, createGroup fails with InvalidGroupName rather than UnknownUser,
because the name check precedes member validation. -/
theorem c5_counterexample :
    ("ghost" ∈ uniqueMembersOf "v" ["ghost"] ∧ lookupUser stC5 "ghost" = none) ∧
      (createGroup "v" ⟨"", none, ["ghost"]⟩ (fun j => j) "g1" stC5).1 =
        Except.error GroupMutationError.invalidGroupName ∧
      ¬ ∃ uid, (createGroup "v" ⟨"", none, ["ghost"]⟩ (fun j => j) "g1" stC5).1 =
          Except.error (GroupMutationError.unknownUser uid) := by
  refine ⟨⟨by decide, by rfl⟩, by rfl, ?_⟩
  rintro ⟨uid, h⟩
  have h2 : (createGroup "v" ⟨"", none, ["ghost"]⟩ (fun j => j) "g1" stC5).1 =
      Except.error GroupMutationError.invalidGroupName := rfl
  rw [h2] at h
  simp at h

/-- Claim C5 (amended): when the trimmed name is non-empty and the
deduplicated member set (requested members plus the caller) contains an id
with no user document, createGroup fails with UnknownUser naming the first
such id in set-iteration order, and the state is unchanged: validation runs
before the single insert. -/
theorem c5_amended_unknown_user (caller : UserId) (args : CreateGroupArgs)
    (clock : Nat → Nat) (newId : GroupId) (st : Ledger) (bad : UserId)
    (hname : ¬ jsTrim args.name = "")
    (hbad : firstMissingMember st (uniqueMembersOf caller args.members) = some bad) :
    createGroup caller args clock newId st =
      (Except.error (GroupMutationError.unknownUser bad), st) := by
  unfold createGroup
  rw [if_neg hname, hbad]

/-- Witness for the amended claim C5: a valid name and the missing member
ghost produce the UnknownUser failure for ghost and leave the state intact. -/
theorem c5_amended_unknown_user_witness :
    createGroup "v" ⟨"Trip", none, ["ghost"]⟩ (fun j => j) "g1" stC5 =
      (Except.error (GroupMutationError.unknownUser "ghost"), stC5) :=
  c5_amended_unknown_user "v" ⟨"Trip", none, ["ghost"]⟩ (fun j => j) "g1" stC5 "ghost"
    (by decide) (by rfl)

/-- Claim C6: every successful createGroup call persists exactly one new group
whose member ids include every requested member and the caller and are
pairwise distinct, the caller having role admin and every other member having
role member. -/
theorem c6_membership (caller : UserId) (args : CreateGroupArgs)
    (clock : Nat → Nat) (newId : GroupId) (st : Ledger)
    (hok : (createGroup caller args clock newId st).1 = Except.ok newId) :
    ∃ g, (createGroup caller args clock newId st).2.groups = st.groups ++ [g] ∧
      (∀ uid ∈ args.members, uid ∈ g.members.map Member.userId) ∧
      caller ∈ g.members.map Member.userId ∧
      (g.members.map Member.userId).Nodup ∧
      (∀ m ∈ g.members, m.userId = caller → m.role = "admin") ∧
      (∀ m ∈ g.members, m.userId ≠ caller → m.role = "member") := by
  refine ⟨_, createGroup_ok_groups caller args clock newId st hok, ?_, ?_, ?_, ?_, ?_⟩
  · intro uid hu
    rw [buildMembers_map_userId, mem_uniqueMembersOf]
    exact Or.inl hu
  · rw [buildMembers_map_userId, mem_uniqueMembersOf]
    exact Or.inr rfl
  · rw [buildMembers_map_userId]
    exact nodup_uniqueMembersOf caller args.members
  · intro m hm heq
    have hr := buildMembers_role caller clock 0 (uniqueMembersOf caller args.members) m hm
    rw [hr, if_pos heq]
  · intro m hm hne
    have hr := buildMembers_role caller clock 0 (uniqueMembersOf caller args.members) m hm
    rw [hr, if_neg hne]

/-- Witness for claim C6: a successful concrete call with a duplicated
requested member produces a group satisfying all the membership properties. -/
theorem c6_membership_witness :
    ∃ g, (createGroup "v" ⟨"Trip", none, ["b1", "b1"]⟩ (fun j => j) "g1" stC6).2.groups =
        stC6.groups ++ [g] ∧
      (∀ uid ∈ ["b1", "b1"], uid ∈ g.members.map Member.userId) ∧
      "v" ∈ g.members.map Member.userId ∧
      (g.members.map Member.userId).Nodup ∧
      (∀ m ∈ g.members, m.userId = "v" → m.role = "admin") ∧
      (∀ m ∈ g.members, m.userId ≠ "v" → m.role = "member") :=
  c6_membership "v" ⟨"Trip", none, ["b1", "b1"]⟩ (fun j => j) "g1" stC6 (by rfl)

/-- Claim C7: a name that is empty or whitespace-only (trims to the empty
string) makes createGroup fail with InvalidGroupName and leaves the state
unchanged, before any write. -/
theorem c7_invalid_name (caller : UserId) (args : CreateGroupArgs)
    (clock : Nat → Nat) (newId : GroupId) (st : Ledger)
    (hname : jsTrim args.name = "") :
    createGroup caller args clock newId st =
      (Except.error GroupMutationError.invalidGroupName, st) := by
  unfold createGroup
  rw [if_pos hname]

/-- Witness for claim C7: a whitespace-only name fails with InvalidGroupName
and persists nothing. -/
theorem c7_invalid_name_witness :
    createGroup "v" ⟨"   ", none, []⟩ (fun j => j) "g1" stC5 =
      (Except.error GroupMutationError.invalidGroupName, stC5) :=
  c7_invalid_name "v" ⟨"   ", none, []⟩ (fun j => j) "g1" stC5 (by rfl)

/-- Claim C8: for every viewer and ledger state, the groups list returned by
getAllContacts consists exactly of the groups whose member roster contains the
viewer, each projected to id, name, description and memberCount equal to the
roster length. -/
theorem c8_groups_exactly_memberships (viewer : UserId) (st : Ledger)
    (s : ContactGroup) :
    s ∈ (getAllContacts viewer st).groups ↔
      ∃ g ∈ st.groups, (∃ m ∈ g.members, m.userId = viewer) ∧
        s = { id := g._id, name := g.name, description := g.description,
              memberCount := g.members.length } := by
  simp only [getAllContacts]
  rw [mem_jsSort, mem_userGroupsOf]
  simp only [groupSummary]

/-- Counterexample to claim C9 as stated: with a clock that advances between
the per-member Date.now() calls, a successful createGroup persists members
with different joinedAt timestamps. -/
theorem c9_counterexample :
    (createGroup "v" ⟨"Trip", none, ["b1"]⟩ (fun j => j) "g1" stC6).1 = Except.ok "g1" ∧
      ∃ g ∈ (createGroup "v" ⟨"Trip", none, ["b1"]⟩ (fun j => j) "g1" stC6).2.groups,
        ∃ m1 ∈ g.members, ∃ m2 ∈ g.members, ¬ m1.joinedAt = m2.joinedAt :=
  ⟨rfl, by decide⟩

/-- Claim C9 (amended): each member's joinedAt records that member's own
Date.now() call made while the member array is built; whenever the clock does
not advance during the call, every member of the persisted group carries that
common timestamp. -/
theorem c9_amended_joined_at (caller : UserId) (args : CreateGroupArgs)
    (clock : Nat → Nat) (newId : GroupId) (st : Ledger) (t : Nat)
    (hclock : ∀ j, clock j = t)
    (hok : (createGroup caller args clock newId st).1 = Except.ok newId) :
    ∃ g, (createGroup caller args clock newId st).2.groups = st.groups ++ [g] ∧
      ∀ m ∈ g.members, m.joinedAt = t := by
  refine ⟨_, createGroup_ok_groups caller args clock newId st hok, ?_⟩
  exact buildMembers_joinedAt caller clock 0 (uniqueMembersOf caller args.members) t hclock

/-- Witness for the amended claim C9: with a constant clock every persisted
member carries the common timestamp. -/
theorem c9_amended_joined_at_witness :
    ∃ g, (createGroup "v" ⟨"Trip", none, ["b1"]⟩ (fun _ => 42) "g1" stC6).2.groups =
        stC6.groups ++ [g] ∧
      ∀ m ∈ g.members, m.joinedAt = 42 :=
  c9_amended_joined_at "v" ⟨"Trip", none, ["b1"]⟩ (fun _ => 42) "g1" stC6 42
    (fun _ => rfl) (by rfl)

/-- Claim C10: every successful createGroup call persists the trimmed input
name, the trimmed description when one is provided, and the empty string when
the description argument is absent. -/
theorem c10_name_description (caller : UserId) (args : CreateGroupArgs)
    (clock : Nat → Nat) (newId : GroupId) (st : Ledger)
    (hok : (createGroup caller args clock newId st).1 = Except.ok newId) :
    ∃ g, (createGroup caller args clock newId st).2.groups = st.groups ++ [g] ∧
      g.name = jsTrim args.name ∧
      (∀ d, args.description = some d → g.description = jsTrim d) ∧
      (args.description = none → g.description = "") := by
  refine ⟨_, createGroup_ok_groups caller args clock newId st hok, rfl, ?_, ?_⟩
  · intro d hd
    rw [hd]
    simp
  · intro hd
    rw [hd]
    simp

/-- Witness for claim C10: a padded name and description are persisted
trimmed. -/
theorem c10_name_description_witness :
    ∃ g, (createGroup "v" ⟨" Trip ", some " our trip ", ["b1"]⟩ (fun j => j)
          "g1" stC6).2.groups = stC6.groups ++ [g] ∧
      g.name = jsTrim " Trip " ∧
      (∀ d, (some " our trip " : Option String) = some d → g.description = jsTrim d) ∧
      ((some " our trip " : Option String) = none → g.description = "") :=
  c10_name_description "v" ⟨" Trip ", some " our trip ", ["b1"]⟩ (fun j => j) "g1" stC6
    (by rfl)
